import Mathlib

set_option maxHeartbeats 1000000

/-!
# Verification of the QuickBooks financial-reporting core

Shallow embedding of `qb_client.py` (pagination and retry with exponential
backoff) and `data_processor.py` (P&L line categorization, balance-sheet
data), plus a spec-modelled cash-flow engine, together with theorems
checking the specification's claims against the code.

Numeric amounts are modelled as `ℚ` (the spec treats them as exact signed
decimals); Python `dict`s are modelled as insertion-ordered association
lists with unique keys, matching CPython semantics.
-/

/-! ## Python dict model -/

/-- A Python `dict`: an insertion-ordered key/value list with unique keys. -/
abbrev PyDict (κ ν : Type) : Type := List (κ × ν)

/-- Key lookup (`d[k]` on the unique-keys invariant: first match). -/
def dictLookup {κ ν : Type} [DecidableEq κ] : PyDict κ ν → κ → Option ν
  | [], _ => none
  | (k', v') :: rest, k => if k' = k then some v' else dictLookup rest k

/-- Python `d.get(k, default)`. -/
def dictGet {κ ν : Type} [DecidableEq κ] (d : PyDict κ ν) (k : κ) (default : ν) : ν :=
  (dictLookup d k).getD default

/-- Python `d[k] = v`: update in place when the key exists, else append. -/
def dictSet {κ ν : Type} [DecidableEq κ] : PyDict κ ν → κ → ν → PyDict κ ν
  | [], k, v => [(k, v)]
  | (k', v') :: rest, k, v =>
    if k' = k then (k, v) :: rest else (k', v') :: dictSet rest k v

/-- Python `d.values()` (insertion order). -/
def dictValues {κ ν : Type} (d : PyDict κ ν) : List ν := d.map Prod.snd

/-- Python `d.keys()` (insertion order). -/
def dictKeys {κ ν : Type} (d : PyDict κ ν) : List κ := d.map Prod.fst

/-! ## qb_client.py: pagination

`_paginate` requests pages of `MAX_RESULTS_PER_PAGE` records, advancing
`start_position` by the page size, and stops on an empty page (before
extending) or a short page (after extending).  The remote endpoint
(`entity_class.all` / `entity_class.where`) is modelled as an
`EntitySource` holding the server-side record sequence; a page request
with `start_position = s` and `max_results = m` returns the slice
`records[s-1 : s-1+m]`, i.e. `(records.drop (s-1)).take m`.  Since the
cursor always advances by exactly the page size, the loop is equivalent
to repeated `take`/`drop` on the not-yet-returned suffix.
-/

/-- `MAX_RESULTS_PER_PAGE = 100` (qb_client.py). -/
def MAX_RESULTS_PER_PAGE : Nat := 100

/-- `MAX_RETRIES = 4` (qb_client.py). -/
def MAX_RETRIES : Nat := 4

/-- `BASE_DELAY = 1.0` second (qb_client.py). -/
def BASE_DELAY : ℚ := 1

/-- A remote entity endpoint (the `Invoice` / `Bill` / `Account` class):
`allRecords` is what `entity_class.all` pages over, `filteredRecords f`
what `entity_class.where(f)` pages over. -/
structure EntitySource (α : Type) where
  allRecords : List α
  filteredRecords : String → List α

/-- Python truthiness of the `filters` argument in `if filters:`:
`None` is falsy and so is the empty string. -/
def filtersTruthy : Option String → Bool
  | none => false
  | some s => !s.isEmpty

/-- The record sequence the chosen endpoint pages over, per the
`if filters: ... where(...) else: ... all(...)` branch of `_paginate`. -/
def serverRecords {α : Type} (src : EntitySource α) (filters : Option String) : List α :=
  if filtersTruthy filters then src.filteredRecords (filters.getD "") else src.allRecords

/-- The `while True` loop of `_paginate`, acting on the suffix of records
not yet returned; also returns the sizes of the pages that came back,
one entry per issued page request. -/
def paginateLoop {α : Type} (records : List α) : List α × List Nat :=
  if (records.take MAX_RESULTS_PER_PAGE).isEmpty then
    ([], [(records.take MAX_RESULTS_PER_PAGE).length])
  else if h : (records.take MAX_RESULTS_PER_PAGE).length < MAX_RESULTS_PER_PAGE then
    (records.take MAX_RESULTS_PER_PAGE, [(records.take MAX_RESULTS_PER_PAGE).length])
  else
    let rest := paginateLoop (records.drop MAX_RESULTS_PER_PAGE)
    (records.take MAX_RESULTS_PER_PAGE ++ rest.1,
     (records.take MAX_RESULTS_PER_PAGE).length :: rest.2)
termination_by records.length
decreasing_by
  have h1 : (records.take MAX_RESULTS_PER_PAGE).length
      = min MAX_RESULTS_PER_PAGE records.length := List.length_take _ _
  rw [h1] at h
  simp only [MAX_RESULTS_PER_PAGE] at h
  simp only [List.length_drop, MAX_RESULTS_PER_PAGE]
  omega

/-- `_paginate(entity_class, filters)`: accumulated records plus the size
of each page that came back. -/
def paginate {α : Type} (src : EntitySource α) (filters : Option String) :
    List α × List Nat :=
  paginateLoop (serverRecords src filters)

/-- `get_invoices(filters)` forwards to `_paginate(Invoice, filters)`. -/
def get_invoices {α : Type} (invoiceSource : EntitySource α) (filters : Option String) :
    List α × List Nat :=
  paginate invoiceSource filters

/-- `get_bills(filters)` forwards to `_paginate(Bill, filters)`. -/
def get_bills {α : Type} (billSource : EntitySource α) (filters : Option String) :
    List α × List Nat :=
  paginate billSource filters

/-- `get_accounts(filters)` forwards to `_paginate(Account, filters)`. -/
def get_accounts {α : Type} (accountSource : EntitySource α) (filters : Option String) :
    List α × List Nat :=
  paginate accountSource filters

/-- The page sizes the loop observes on a server holding `n` records:
`n / 100` full pages followed by one final page of `n % 100` records
(possibly empty). -/
def pageSizes (n : Nat) : List Nat :=
  List.replicate (n / MAX_RESULTS_PER_PAGE) MAX_RESULTS_PER_PAGE
    ++ [n % MAX_RESULTS_PER_PAGE]

lemma paginateLoop_eq_aux {α : Type} :
    ∀ (n : Nat) (records : List α), records.length ≤ n →
      paginateLoop records = (records, pageSizes records.length) := by
  intro n
  induction n with
  | zero =>
    intro records hlen
    have : records = [] := List.length_eq_zero.mp (Nat.le_zero.mp hlen)
    subst this
    simp [paginateLoop, pageSizes, MAX_RESULTS_PER_PAGE]
  | succ n ih =>
    intro records hlen
    unfold paginateLoop
    by_cases he : (records.take MAX_RESULTS_PER_PAGE).isEmpty
    · have : records = [] := by
        rcases List.take_eq_nil_iff.mp (List.isEmpty_iff.mp he) with h | h
        · exact absurd h (by simp [MAX_RESULTS_PER_PAGE])
        · exact h
      subst this
      simp [pageSizes, MAX_RESULTS_PER_PAGE]
    · rw [if_neg he]
      have hmin : (records.take MAX_RESULTS_PER_PAGE).length
          = min MAX_RESULTS_PER_PAGE records.length := List.length_take _ _
      by_cases hshort : (records.take MAX_RESULTS_PER_PAGE).length < MAX_RESULTS_PER_PAGE
      · rw [dif_pos hshort]
        have hlt : records.length < MAX_RESULTS_PER_PAGE := by
          rw [hmin] at hshort; omega
        have htake : records.take MAX_RESULTS_PER_PAGE = records :=
          List.take_of_length_le (Nat.le_of_lt hlt)
        rw [htake]
        have hdiv : records.length / MAX_RESULTS_PER_PAGE = 0 := Nat.div_eq_of_lt hlt
        have hmod : records.length % MAX_RESULTS_PER_PAGE = records.length :=
          Nat.mod_eq_of_lt hlt
        simp [pageSizes, hdiv, hmod]
      · rw [dif_neg hshort]
        have hge : MAX_RESULTS_PER_PAGE ≤ records.length := by
          rw [hmin] at hshort; omega
        have hdropped : (records.drop MAX_RESULTS_PER_PAGE).length
            = records.length - MAX_RESULTS_PER_PAGE := List.length_drop _ _
        have hrec : paginateLoop (records.drop MAX_RESULTS_PER_PAGE)
            = (records.drop MAX_RESULTS_PER_PAGE,
               pageSizes (records.length - MAX_RESULTS_PER_PAGE)) := by
          rw [ih _ (by rw [hdropped]; simp only [MAX_RESULTS_PER_PAGE]; omega), hdropped]
        rw [hrec]
        have htlen : (records.take MAX_RESULTS_PER_PAGE).length = MAX_RESULTS_PER_PAGE := by
          rw [hmin]; omega
        have hdiv : records.length / MAX_RESULTS_PER_PAGE
            = (records.length - MAX_RESULTS_PER_PAGE) / MAX_RESULTS_PER_PAGE + 1 :=
          Nat.div_eq_sub_div (by simp [MAX_RESULTS_PER_PAGE]) hge
        simp only [Prod.mk.injEq]
        refine ⟨List.take_append_drop _ _, ?_⟩
        rw [htlen]
        simp [pageSizes, hdiv, Nat.mod_eq_sub_mod hge, List.replicate_succ]

/-- The pagination loop returns every server record in order and issues
exactly `n / 100` full-page requests followed by one final short-or-empty
page request. -/
lemma paginateLoop_spec {α : Type} (records : List α) :
    paginateLoop records = (records, pageSizes records.length) :=
  paginateLoop_eq_aux records.length records le_rfl

/-! ## qb_client.py: `_retry_call`

`_retry_call(func)` runs `for attempt in range(MAX_RETRIES + 1)`.  Each
iteration calls `func()`; an `AuthorizationException` re-raises at once,
a `QuickbooksException` re-raises when `attempt == MAX_RETRIES` and
otherwise sleeps `BASE_DELAY * 2 ** attempt + random.uniform(0, 1)` and
retries.  The call under retry is modelled as a function from the attempt
index to that attempt's outcome, the jitter stream as a function from the
attempt index to the drawn jitter, and the backoff sleeps are recorded in
order.  `none` models the (unreachable) fall-through of the `for` loop,
which in Python would return `None`.
-/

/-- The two error classes of `quickbooks.exceptions` the code
discriminates: `AuthorizationException` (permanent) and the base
`QuickbooksException` (transient), each carrying a message. -/
inductive QBError : Type where
  | authorization : String → QBError
  | transient : String → QBError
deriving DecidableEq

/-- The `for attempt in range(...)` loop of `_retry_call`, over the list
of remaining attempt indices.  Returns the outcome together with the
recorded backoff sleeps, or `none` if the loop fell through. -/
def retryGo {α : Type} (func : Nat → Except QBError α) (jitter : Nat → ℚ) :
    List Nat → Option (Except QBError α × List ℚ)
  | [] => none
  | attempt :: restAttempts =>
    match func attempt with
    | Except.ok v => some (Except.ok v, [])
    | Except.error (QBError.authorization m) =>
      some (Except.error (QBError.authorization m), [])
    | Except.error (QBError.transient m) =>
      if attempt = MAX_RETRIES then some (Except.error (QBError.transient m), [])
      else
        match retryGo func jitter restAttempts with
        | some (r, ds) => some (r, (BASE_DELAY * 2 ^ attempt + jitter attempt) :: ds)
        | none => none

/-- `_retry_call(func)`: run the attempts `0, 1, ..., MAX_RETRIES`. -/
def retryCall {α : Type} (func : Nat → Except QBError α) (jitter : Nat → ℚ) :
    Option (Except QBError α × List ℚ) :=
  retryGo func jitter (List.range (MAX_RETRIES + 1))

/-- The backoff sleeps recorded for `k` consecutive failed transient
attempts `0, ..., k-1`: `BASE_DELAY * 2 ^ i + jitter i` for attempt `i`. -/
def backoffDelays (jitter : Nat → ℚ) (k : Nat) : List ℚ :=
  (List.range k).map (fun i => BASE_DELAY * 2 ^ i + jitter i)

lemma retryGo_ok_aux {α : Type} (func : Nat → Except QBError α) (jitter : Nat → ℚ)
    (k : Nat) (v : α) (hk : k ≤ MAX_RETRIES)
    (htr : ∀ i, i < k → ∃ m, func i = Except.error (QBError.transient m))
    (hok : func k = Except.ok v) :
    ∀ (d s : Nat), s ≤ k → k - s = d →
      retryGo func jitter (List.range' s (MAX_RETRIES + 1 - s)) =
        some (Except.ok v,
          (List.range' s (k - s)).map (fun i => BASE_DELAY * 2 ^ i + jitter i)) := by
  intro d
  induction d with
  | zero =>
    intro s hs hd
    have hsk : s = k := by omega
    subst hsk
    have h1 : MAX_RETRIES + 1 - s = (MAX_RETRIES - s) + 1 := by omega
    rw [h1, List.range'_succ]
    have h0 : s - s = 0 := by omega
    rw [hd]
    simp [retryGo, hok]
  | succ d ih =>
    intro s hs hd
    have hsk : s < k := by omega
    obtain ⟨m, hm⟩ := htr s hsk
    have h1 : MAX_RETRIES + 1 - s = (MAX_RETRIES - s) + 1 := by omega
    rw [h1, List.range'_succ]
    have hsmax : s ≠ MAX_RETRIES := by omega
    have h2 : MAX_RETRIES - s = MAX_RETRIES + 1 - (s + 1) := by omega
    have hrec := ih (s + 1) (by omega) (by omega)
    rw [h2] at *
    simp only [retryGo, hm, hsmax, if_false, hrec]
    have h3 : k - s = (k - (s + 1)) + 1 := by omega
    rw [h3, List.range'_succ]
    simp

lemma retryGo_auth_aux {α : Type} (func : Nat → Except QBError α) (jitter : Nat → ℚ)
    (k : Nat) (m : String) (hk : k ≤ MAX_RETRIES)
    (htr : ∀ i, i < k → ∃ mi, func i = Except.error (QBError.transient mi))
    (hauth : func k = Except.error (QBError.authorization m)) :
    ∀ (d s : Nat), s ≤ k → k - s = d →
      retryGo func jitter (List.range' s (MAX_RETRIES + 1 - s)) =
        some (Except.error (QBError.authorization m),
          (List.range' s (k - s)).map (fun i => BASE_DELAY * 2 ^ i + jitter i)) := by
  intro d
  induction d with
  | zero =>
    intro s hs hd
    have hsk : s = k := by omega
    subst hsk
    have h1 : MAX_RETRIES + 1 - s = (MAX_RETRIES - s) + 1 := by omega
    rw [h1, List.range'_succ, hd]
    simp [retryGo, hauth]
  | succ d ih =>
    intro s hs hd
    have hsk : s < k := by omega
    obtain ⟨mi, hm⟩ := htr s hsk
    have h1 : MAX_RETRIES + 1 - s = (MAX_RETRIES - s) + 1 := by omega
    rw [h1, List.range'_succ]
    have hsmax : s ≠ MAX_RETRIES := by omega
    have h2 : MAX_RETRIES - s = MAX_RETRIES + 1 - (s + 1) := by omega
    have hrec := ih (s + 1) (by omega) (by omega)
    rw [h2] at *
    simp only [retryGo, hm, hsmax, if_false, hrec]
    have h3 : k - s = (k - (s + 1)) + 1 := by omega
    rw [h3, List.range'_succ]
    simp

lemma retryGo_exhaust_aux {α : Type} (func : Nat → Except QBError α) (jitter : Nat → ℚ)
    (m : Nat → String)
    (htr : ∀ i, i ≤ MAX_RETRIES → func i = Except.error (QBError.transient (m i))) :
    ∀ (d s : Nat), s ≤ MAX_RETRIES → MAX_RETRIES - s = d →
      retryGo func jitter (List.range' s (MAX_RETRIES + 1 - s)) =
        some (Except.error (QBError.transient (m MAX_RETRIES)),
          (List.range' s (MAX_RETRIES - s)).map (fun i => BASE_DELAY * 2 ^ i + jitter i)) := by
  intro d
  induction d with
  | zero =>
    intro s hs hd
    have h1 : MAX_RETRIES + 1 - s = (MAX_RETRIES - s) + 1 := by omega
    rw [h1, List.range'_succ, hd]
    have hsk : s = MAX_RETRIES := by omega
    rw [hsk]
    simp [retryGo, htr MAX_RETRIES le_rfl]
  | succ d ih =>
    intro s hs hd
    have hsk : s < MAX_RETRIES := by omega
    have hm := htr s (by omega)
    have h1 : MAX_RETRIES + 1 - s = (MAX_RETRIES - s) + 1 := by omega
    rw [h1, List.range'_succ]
    have hsmax : s ≠ MAX_RETRIES := by omega
    have h2 : MAX_RETRIES - s = MAX_RETRIES + 1 - (s + 1) := by omega
    have hrec := ih (s + 1) (by omega) (by omega)
    rw [← h2] at hrec
    simp only [retryGo, hm, hsmax, if_false, hrec]
    have h3 : MAX_RETRIES - s = (MAX_RETRIES - (s + 1)) + 1 := by omega
    rw [h3, List.range'_succ]
    simp

/-- Successfully completed calls: `k` transient failures then a success on
attempt `k` return the result with exactly the `k` backoff sleeps. -/
lemma retryCall_ok {α : Type} (func : Nat → Except QBError α) (jitter : Nat → ℚ)
    (k : Nat) (v : α) (hk : k ≤ MAX_RETRIES)
    (htr : ∀ i, i < k → ∃ m, func i = Except.error (QBError.transient m))
    (hok : func k = Except.ok v) :
    retryCall func jitter = some (Except.ok v, backoffDelays jitter k) := by
  have h := retryGo_ok_aux func jitter k v hk htr hok k 0 (Nat.zero_le _) (by omega)
  rw [retryCall, List.range_eq_range']
  simpa [backoffDelays, List.range_eq_range'] using h

/-- An authorization error on attempt `k` (after `k` transient failures)
propagates at once with only the `k` earlier sleeps. -/
lemma retryCall_auth {α : Type} (func : Nat → Except QBError α) (jitter : Nat → ℚ)
    (k : Nat) (m : String) (hk : k ≤ MAX_RETRIES)
    (htr : ∀ i, i < k → ∃ mi, func i = Except.error (QBError.transient mi))
    (hauth : func k = Except.error (QBError.authorization m)) :
    retryCall func jitter
      = some (Except.error (QBError.authorization m), backoffDelays jitter k) := by
  have h := retryGo_auth_aux func jitter k m hk htr hauth k 0 (Nat.zero_le _) (by omega)
  rw [retryCall, List.range_eq_range']
  simpa [backoffDelays, List.range_eq_range'] using h

/-- All `MAX_RETRIES + 1` attempts transient: the last error propagates
after `MAX_RETRIES` sleeps. -/
lemma retryCall_exhaust {α : Type} (func : Nat → Except QBError α) (jitter : Nat → ℚ)
    (m : Nat → String)
    (htr : ∀ i, i ≤ MAX_RETRIES → func i = Except.error (QBError.transient (m i))) :
    retryCall func jitter
      = some (Except.error (QBError.transient (m MAX_RETRIES)),
              backoffDelays jitter MAX_RETRIES) := by
  have h := retryGo_exhaust_aux func jitter m htr MAX_RETRIES 0 (Nat.zero_le _) (by omega)
  rw [retryCall, List.range_eq_range']
  simpa [backoffDelays, List.range_eq_range'] using h

/-- With jitter drawn from `[0, 1)`, consecutive backoff delays are
non-decreasing (in fact strictly increasing). -/
lemma backoffDelays_chain (jitter : Nat → ℚ)
    (hj : ∀ i, 0 ≤ jitter i ∧ jitter i < 1) (k : Nat) :
    List.Chain' (· ≤ ·) (backoffDelays jitter k) := by
  rw [backoffDelays, List.chain'_iff_get]
  intro i hi
  simp only [List.get_eq_getElem, List.getElem_map, List.getElem_range]
  have h1 : (1 : ℚ) ≤ 2 ^ i := one_le_pow₀ (by norm_num)
  have h2 := (hj i).2
  have h3 := (hj (i + 1)).1
  have h4 : (2 : ℚ) ^ (i + 1) = 2 ^ i + 2 ^ i := by ring
  simp only [BASE_DELAY, one_mul]
  rw [h4]
  linarith

/-! ## data_processor.py: line categorization and P&L

Raw QuickBooks objects are loosely typed; the code probes attributes with
`getattr(obj, attr, default)`.  An attribute can be absent (the `getattr`
default applies), present with value `None`, or present with a value, so
probed attributes are modelled as `Option`s, nesting an inner `Option`
exactly where the code distinguishes "attribute present but `None`" from
"attribute absent" (the `name` attribute of a reference, and `Amount`).
-/

/-- A QuickBooks reference object (`ItemRef` / `AccountRef`).  `name` is
`none` when the attribute is absent, `some none` when it is present but
`None`, `some (some s)` when it holds the string `s`. -/
structure QBRef where
  name : Option (Option String)
deriving DecidableEq

/-- `getattr(ref, "name", default)`: the default applies only when the
attribute is absent; a present `None` (or empty) name is returned as is. -/
def getattrName (r : QBRef) (default : String) : Option String :=
  match r.name with
  | none => some default
  | some v => v

/-- `SalesItemLineDetail` payload. -/
structure SalesDetail where
  ItemRef : Option QBRef
deriving DecidableEq

/-- `AccountBasedExpenseLineDetail` payload. -/
structure AcctExpenseDetail where
  AccountRef : Option QBRef
deriving DecidableEq

/-- `ItemBasedExpenseLineDetail` payload. -/
structure ItemExpenseDetail where
  ItemRef : Option QBRef
deriving DecidableEq

/-- A transaction line.  `Amount` is `none` when the attribute is absent,
`some none` when present but `None`, `some (some q)` when it holds `q`.
Each detail attribute is `none` when absent or `None`. -/
structure TxnLine where
  Amount : Option (Option ℚ)
  SalesItemLineDetail : Option SalesDetail
  AccountBasedExpenseLineDetail : Option AcctExpenseDetail
  ItemBasedExpenseLineDetail : Option ItemExpenseDetail
deriving DecidableEq

/-- `amount = getattr(line, "Amount", 0) or 0`, then `float(amount)`:
absent or `None` (or zero) collapse to `0`; a value passes through as a
signed decimal. -/
def lineAmount (line : TxnLine) : ℚ :=
  match line.Amount with
  | none => 0
  | some none => 0
  | some (some x) => x

/-- Revenue category of a line (`_extract_revenue_lines` body): the sales
item detail's `ItemRef.name` when reachable, else `"Other Revenue"`.  The
result is a Python string-or-`None` value. -/
def revenueCategory (line : TxnLine) : Option String :=
  match line.SalesItemLineDetail with
  | some detail =>
    match detail.ItemRef with
    | some item_ref => getattrName item_ref "Other Revenue"
    | none => some "Other Revenue"
  | none => some "Other Revenue"

/-- Expense category of a line (`_extract_expense_lines` body): the
account-based detail is probed first, then the item-based detail, else
`"Other Expenses"`. -/
def expenseCategory (line : TxnLine) : Option String :=
  match line.AccountBasedExpenseLineDetail with
  | some acct_detail =>
    match acct_detail.AccountRef with
    | some ref => getattrName ref "Other Expenses"
    | none => some "Other Expenses"
  | none =>
    match line.ItemBasedExpenseLineDetail with
    | some item_detail =>
      match item_detail.ItemRef with
      | some ref => getattrName ref "Other Expenses"
      | none => some "Other Expenses"
    | none => some "Other Expenses"

/-- An invoice, as the extraction code sees it: `Line` is `none` when the
attribute is absent (`getattr(inv, "Line", [])` falls back to `[]`). -/
structure Invoice where
  Line : Option (List TxnLine)

/-- A bill, as the extraction code sees it. -/
structure Bill where
  Line : Option (List TxnLine)

def invoiceLines (inv : Invoice) : List TxnLine := inv.Line.getD []

def billLines (b : Bill) : List TxnLine := b.Line.getD []

/-- `_extract_revenue_lines(invoices)`: one `(Category, Amount)` record
per line of every invoice, in order. -/
def extract_revenue_lines (invoices : List Invoice) : List (Option String × ℚ) :=
  invoices.flatMap (fun inv =>
    (invoiceLines inv).map (fun line => (revenueCategory line, lineAmount line)))

/-- `_extract_expense_lines(bills)`: one `(Category, Amount)` record per
line of every bill, in order. -/
def extract_expense_lines (bills : List Bill) : List (Option String × ℚ) :=
  bills.flatMap (fun b =>
    (billLines b).map (fun line => (expenseCategory line, lineAmount line)))

/-- The `rev_by_cat` / `exp_by_cat` grouping loop:
`d[cat] = d.get(cat, 0) + amount` over the extracted records. -/
def groupByCategory (lines : List (Option String × ℚ)) : PyDict (Option String) ℚ :=
  lines.foldl (fun d r => dictSet d r.1 (dictGet d r.1 0 + r.2)) []

/-- The detailed P&L dict returned by `generate_profit_loss_statement`
on raw objects (fields named after its keys). -/
structure PLStatement where
  revenue_detail : PyDict (Option String) ℚ
  expense_detail : PyDict (Option String) ℚ
  totalRevenue : ℚ
  totalExpenses : ℚ
  grossProfit : ℚ
  netIncome : ℚ
deriving DecidableEq

/-- `generate_profit_loss_statement(invoices, bills)` on raw objects
(the detailed path; the DataFrame fallback `_simple_pl` is not taken). -/
def generate_profit_loss_statement (invoices : List Invoice) (bills : List Bill) :
    PLStatement :=
  let revenue_lines := extract_revenue_lines invoices
  let expense_lines := extract_expense_lines bills
  let rev_by_cat := groupByCategory revenue_lines
  let exp_by_cat := groupByCategory expense_lines
  let total_revenue := (dictValues rev_by_cat).sum
  let total_expenses := (dictValues exp_by_cat).sum
  let gross_profit := total_revenue - total_expenses
  { revenue_detail := rev_by_cat
    expense_detail := exp_by_cat
    totalRevenue := total_revenue
    totalExpenses := total_expenses
    grossProfit := gross_profit
    netIncome := gross_profit }

/-! ## data_processor.py: balance sheet -/

/-- An account as `generate_balance_sheet_data` probes it: `Name` and
`CurrentBalance` are `none` when the attribute is absent (the `getattr`
defaults `"Unknown Account"` and `0` then apply).  `AccountType` is part
of the fetched data model but never read by this code. -/
structure Account where
  Name : Option String
  CurrentBalance : Option ℚ
  AccountType : Option String
deriving DecidableEq

/-- `getattr(acc, "Name", "Unknown Account")`. -/
def accountName (acc : Account) : String := acc.Name.getD "Unknown Account"

/-- `getattr(acc, "CurrentBalance", 0)`. -/
def accountBalance (acc : Account) : ℚ := acc.CurrentBalance.getD 0

/-- `generate_balance_sheet_data(accounts)`: the flat
`{account_name: current_balance}` dict the code builds. -/
def generate_balance_sheet_data (accounts : List Account) : PyDict String ℚ :=
  if accounts.isEmpty then []
  else accounts.foldl
    (fun d acc => dictSet d (accountName acc) (accountBalance acc)) []

/-- The balance of the last account in the list carrying a given name,
if any: the value a Python dict keyed by name retains. -/
def lastNamedBalance : List Account → String → Option ℚ
  | [], _ => none
  | acc :: rest, n =>
    match lastNamedBalance rest n with
    | some v => some v
    | none => if accountName acc = n then some (accountBalance acc) else none

/-! ## Spec-modelled cash-flow engine -/

/-- Modelled from the spec: the cash-flow statement shape (spec §3) —
`net_income`, the three pre-classified category maps, the three net
figures, `net_change_in_cash` and `ending_cash`.  No cash-flow engine
exists under `src/`; only `tests/test_reporting.py` consumes this shape
(via the also-absent `export_cash_flow`). -/
structure CashFlowStatement where
  net_income : ℚ
  operating : PyDict String ℚ
  investing : PyDict String ℚ
  financing : PyDict String ℚ
  net_operating : ℚ
  net_investing : ℚ
  net_financing : ℚ
  net_change_in_cash : ℚ
  ending_cash : ℚ
deriving DecidableEq

/-- Modelled from the spec: the cash-flow construction of §4.5 (indirect
method).  The engine is handed `net_income`, `beginning_cash` and the
three pre-classified maps and derives
`net_operating = Σ operating`, likewise investing/financing,
`net_change_in_cash = net_operating + net_investing + net_financing`, and
`ending_cash = beginning_cash + net_change_in_cash`.  It never infers
category membership itself. -/
def generate_cash_flow_statement (net_income beginning_cash : ℚ)
    (operating investing financing : PyDict String ℚ) : CashFlowStatement :=
  let net_operating := (dictValues operating).sum
  let net_investing := (dictValues investing).sum
  let net_financing := (dictValues financing).sum
  let net_change := net_operating + net_investing + net_financing
  { net_income := net_income
    operating := operating
    investing := investing
    financing := financing
    net_operating := net_operating
    net_investing := net_investing
    net_financing := net_financing
    net_change_in_cash := net_change
    ending_cash := beginning_cash + net_change }

/-! ## Dict lemmas -/

lemma dictLookup_dictSet {κ ν : Type} [DecidableEq κ] (d : PyDict κ ν) (k k' : κ) (v : ν) :
    dictLookup (dictSet d k v) k' = if k = k' then some v else dictLookup d k' := by
  induction d with
  | nil => simp [dictSet, dictLookup]
  | cons hd rest ih =>
    obtain ⟨k₀, v₀⟩ := hd
    by_cases h0 : k₀ = k
    · subst h0
      simp only [dictSet, if_pos rfl, dictLookup]
      by_cases h1 : k₀ = k'
      · subst h1; simp
      · simp [h1, dictLookup]
    · simp only [dictSet, if_neg h0, dictLookup]
      by_cases h1 : k₀ = k'
      · subst h1
        have : ¬ k = k₀ := fun h => h0 h.symm
        simp [this]
      · simp [h1, ih]

lemma mem_dictKeys_dictSet {κ ν : Type} [DecidableEq κ] (d : PyDict κ ν) (k k' : κ) (v : ν) :
    k' ∈ dictKeys (dictSet d k v) ↔ k' ∈ dictKeys d ∨ k' = k := by
  induction d with
  | nil => simp [dictSet, dictKeys]
  | cons hd rest ih =>
    obtain ⟨k₀, v₀⟩ := hd
    by_cases h0 : k₀ = k
    · subst h0
      simp [dictSet, dictKeys]
      tauto
    · simp [dictSet, dictKeys, h0] at ih ⊢
      tauto

/-- `d[k] = d.get(k, 0) + x` adds `x` to the total of the dict's values,
whether or not the key is already present. -/
lemma sum_dictValues_dictSet_add {κ : Type} [DecidableEq κ]
    (d : PyDict κ ℚ) (k : κ) (x : ℚ) :
    (dictValues (dictSet d k (dictGet d k 0 + x))).sum = (dictValues d).sum + x := by
  induction d with
  | nil => simp [dictSet, dictValues, dictGet, dictLookup]
  | cons hd rest ih =>
    obtain ⟨k₀, v₀⟩ := hd
    by_cases h0 : k₀ = k
    · subst h0
      simp [dictGet, dictLookup, dictSet, dictValues]
      ring
    · simp only [dictGet, dictLookup, dictSet, dictValues] at ih ⊢
      simp [h0] at ih ⊢
      linarith [ih]

/-- Setting a key not yet present appends it: the values total grows by
the new value. -/
lemma sum_dictValues_dictSet_new {κ : Type} [DecidableEq κ]
    (d : PyDict κ ℚ) (k : κ) (v : ℚ) (hk : k ∉ dictKeys d) :
    (dictValues (dictSet d k v)).sum = (dictValues d).sum + v := by
  induction d with
  | nil => simp [dictSet, dictValues]
  | cons hd rest ih =>
    obtain ⟨k₀, v₀⟩ := hd
    simp only [dictKeys, List.map_cons, List.mem_cons] at hk
    push_neg at hk
    have h0 : k₀ ≠ k := fun h => hk.1 h.symm
    have ih' := ih hk.2
    simp only [dictValues] at ih'
    simp only [dictSet, if_neg h0, dictValues, List.map_cons, List.sum_cons]
    rw [ih']
    ring

/-- The grouping loop conserves value: the dict's values total what the
listed amounts total, starting from any dict. -/
lemma groupBy_sum_aux :
    ∀ (lines : List (Option String × ℚ)) (d : PyDict (Option String) ℚ),
      (dictValues (lines.foldl (fun d r => dictSet d r.1 (dictGet d r.1 0 + r.2)) d)).sum
        = (dictValues d).sum + (lines.map Prod.snd).sum := by
  intro lines
  induction lines with
  | nil => intro d; simp
  | cons r rest ih =>
    intro d
    simp only [List.foldl_cons, List.map_cons, List.sum_cons]
    rw [ih, sum_dictValues_dictSet_add]
    ring

/-- Categorization never loses or duplicates value. -/
lemma groupBy_sum (lines : List (Option String × ℚ)) :
    (dictValues (groupByCategory lines)).sum = (lines.map Prod.snd).sum := by
  have h := groupBy_sum_aux lines []
  simpa [groupByCategory, dictValues] using h

/-- Total of the raw line amounts of a list of invoices. -/
def rawRevenueTotal (invoices : List Invoice) : ℚ :=
  (invoices.map (fun inv => ((invoiceLines inv).map lineAmount).sum)).sum

/-- Total of the raw line amounts of a list of bills. -/
def rawExpenseTotal (bills : List Bill) : ℚ :=
  (bills.map (fun b => ((billLines b).map lineAmount).sum)).sum

lemma sum_map_flatMap {α β : Type} (l : List α) (f : α → List β) (g : β → ℚ) :
    ((l.flatMap f).map g).sum = (l.map (fun a => ((f a).map g).sum)).sum := by
  induction l with
  | nil => simp
  | cons a rest ih => simp [ih]

lemma extract_revenue_lines_sum (invoices : List Invoice) :
    ((extract_revenue_lines invoices).map Prod.snd).sum = rawRevenueTotal invoices := by
  rw [extract_revenue_lines, sum_map_flatMap, rawRevenueTotal]
  simp [List.map_map, Function.comp_def]

lemma extract_expense_lines_sum (bills : List Bill) :
    ((extract_expense_lines bills).map Prod.snd).sum = rawExpenseTotal bills := by
  rw [extract_expense_lines, sum_map_flatMap, rawExpenseTotal]
  simp [List.map_map, Function.comp_def]

/-- C5: for every list of invoices and bills passed as raw objects, the
P&L statement conserves value: the revenue (resp. expense) detail map
totals the raw revenue (resp. expense) line amounts, `Total Revenue` and
`Total Expenses` equal those sums, and
`Gross Profit = Net Income = Total Revenue − Total Expenses`. -/
theorem pl_value_conservation (invoices : List Invoice) (bills : List Bill) :
    (dictValues (generate_profit_loss_statement invoices bills).revenue_detail).sum
        = rawRevenueTotal invoices
    ∧ (dictValues (generate_profit_loss_statement invoices bills).expense_detail).sum
        = rawExpenseTotal bills
    ∧ (generate_profit_loss_statement invoices bills).totalRevenue
        = rawRevenueTotal invoices
    ∧ (generate_profit_loss_statement invoices bills).totalExpenses
        = rawExpenseTotal bills
    ∧ (generate_profit_loss_statement invoices bills).grossProfit
        = (generate_profit_loss_statement invoices bills).totalRevenue
          - (generate_profit_loss_statement invoices bills).totalExpenses
    ∧ (generate_profit_loss_statement invoices bills).netIncome
        = (generate_profit_loss_statement invoices bills).grossProfit := by
  have hrev : (dictValues (groupByCategory (extract_revenue_lines invoices))).sum
      = rawRevenueTotal invoices := by
    rw [groupBy_sum, extract_revenue_lines_sum]
  have hexp : (dictValues (groupByCategory (extract_expense_lines bills))).sum
      = rawExpenseTotal bills := by
    rw [groupBy_sum, extract_expense_lines_sum]
  refine ⟨?_, ?_, ?_, ?_, ?_, ?_⟩ <;>
    simp [generate_profit_loss_statement, hrev, hexp]

/-! ## Claim theorems: pagination and retry -/

/-- Every non-final page request of a run comes back full: no request is
ever issued after a short or empty page. -/
lemma pageSizes_full (n i : Nat) (h : i + 1 < (pageSizes n).length) :
    (pageSizes n)[i]? = some MAX_RESULTS_PER_PAGE := by
  have hlen : (List.replicate (n / MAX_RESULTS_PER_PAGE) MAX_RESULTS_PER_PAGE).length
      = n / MAX_RESULTS_PER_PAGE := List.length_replicate _ _
  have hi : i < n / MAX_RESULTS_PER_PAGE := by
    simp only [pageSizes, List.length_append, hlen, List.length_singleton] at h
    omega
  rw [pageSizes, List.getElem?_append_left (by rw [hlen]; exact hi)]
  simp [List.getElem?_replicate_of_lt hi]

/-- C2: a source holding exactly 250 records yields exactly 3 page
requests returning 100, 100, 50 records and all 250 records in server
order; a source holding exactly 200 records terminates with its third
page coming back empty; and in every run only the final page is short
or empty — no request is issued after one. -/
theorem paginate_spec {α : Type} (src : EntitySource α) (filters : Option String) :
    ((serverRecords src filters).length = 250 →
      (paginate src filters).1 = serverRecords src filters
      ∧ (paginate src filters).2 = [100, 100, 50])
    ∧ ((serverRecords src filters).length = 200 →
      (paginate src filters).1 = serverRecords src filters
      ∧ (paginate src filters).2 = [100, 100, 0])
    ∧ (∀ i, i + 1 < (paginate src filters).2.length →
      (paginate src filters).2[i]? = some MAX_RESULTS_PER_PAGE) := by
  have hp : paginate src filters
      = (serverRecords src filters, pageSizes (serverRecords src filters).length) := by
    rw [paginate, paginateLoop_spec]
  refine ⟨fun h250 => ?_, fun h200 => ?_, fun i hi => ?_⟩
  · rw [hp, h250]
    refine ⟨rfl, ?_⟩
    show pageSizes 250 = [100, 100, 50]
    decide
  · rw [hp, h200]
    refine ⟨rfl, ?_⟩
    show pageSizes 200 = [100, 100, 0]
    decide
  · rw [hp] at hi ⊢
    exact pageSizes_full _ i hi

/-- A server source holding the 250 records `0, ..., 249`. -/
def natSource : EntitySource Nat :=
  { allRecords := List.range 250, filteredRecords := fun _ => [] }

theorem paginate_spec_witness :
    (serverRecords natSource none).length = 250
    ∧ ((paginate natSource none).1 = serverRecords natSource none
      ∧ (paginate natSource none).2 = [100, 100, 50]) :=
  ⟨by simp [serverRecords, natSource, filtersTruthy],
   (paginate_spec natSource none).1
     (by simp [serverRecords, natSource, filtersTruthy])⟩

/-- C10: `_paginate` (and hence `get_invoices`, `get_bills`,
`get_accounts`) issues filtered `where` requests iff the filter argument
is truthy: an empty-string filter is treated the same as no filter and
yields unfiltered `all` requests fetching every record. -/
theorem paginate_empty_filter_unfiltered {α : Type} (src : EntitySource α) :
    paginate src (some "") = paginate src none
    ∧ (paginate src (some "")).1 = src.allRecords
    ∧ (paginate src none).1 = src.allRecords
    ∧ filtersTruthy (some "") = false
    ∧ filtersTruthy none = false
    ∧ (∀ s : String, s ≠ "" →
      filtersTruthy (some s) = true
      ∧ serverRecords src (some s) = src.filteredRecords s)
    ∧ get_invoices src (some "") = get_invoices src none
    ∧ get_bills src (some "") = get_bills src none
    ∧ get_accounts src (some "") = get_accounts src none := by
  have hsrv : serverRecords src (some "") = src.allRecords := rfl
  have hsrv0 : serverRecords src none = src.allRecords := rfl
  have hpag : paginate src (some "") = paginate src none := by
    rw [paginate, paginate, hsrv, hsrv0]
  refine ⟨hpag, ?_, ?_, rfl, rfl, fun s hs => ?_, hpag, hpag, hpag⟩
  · rw [paginate, hsrv, paginateLoop_spec]
  · rw [paginate, hsrv0, paginateLoop_spec]
  · have hne : s.isEmpty = false := by
      rw [Bool.eq_false_iff]
      intro h
      exact hs ((String.isEmpty_iff s).mp h)
    constructor
    · simp [filtersTruthy, hne]
    · simp [serverRecords, filtersTruthy, hne]

theorem paginate_empty_filter_witness :
    ("x" : String) ≠ ""
    ∧ (filtersTruthy (some "x") = true
      ∧ serverRecords natSource (some "x") = natSource.filteredRecords "x") :=
  ⟨by decide,
   (paginate_empty_filter_unfiltered natSource).2.2.2.2.2.1 "x" (by decide)⟩

/-- C3: transient failures are retried with exponential backoff
`BASE_DELAY * 2 ^ attempt + jitter` up to `MAX_RETRIES = 4` retries
(5 total attempts): `k ≤ 4` transient failures followed by a success on
attempt `k` return the result with exactly `k` sleeps, non-decreasing
when the jitter is drawn from `[0, 1)`; if all 5 attempts fail
transiently, the last transient error propagates after 4 sleeps. -/
theorem retry_backoff_spec {α : Type} (func : Nat → Except QBError α) (jitter : Nat → ℚ)
    (hj : ∀ i, 0 ≤ jitter i ∧ jitter i < 1) :
    (∀ (k : Nat) (v : α), k ≤ MAX_RETRIES →
      (∀ i, i < k → ∃ m, func i = Except.error (QBError.transient m)) →
      func k = Except.ok v →
      retryCall func jitter = some (Except.ok v, backoffDelays jitter k)
      ∧ (backoffDelays jitter k).length = k
      ∧ List.Chain' (· ≤ ·) (backoffDelays jitter k))
    ∧ (∀ m : Nat → String,
      (∀ i, i ≤ MAX_RETRIES → func i = Except.error (QBError.transient (m i))) →
      retryCall func jitter
        = some (Except.error (QBError.transient (m MAX_RETRIES)),
                backoffDelays jitter MAX_RETRIES)
      ∧ (backoffDelays jitter MAX_RETRIES).length = MAX_RETRIES) := by
  constructor
  · intro k v hk htr hok
    exact ⟨retryCall_ok func jitter k v hk htr hok,
      by simp [backoffDelays],
      backoffDelays_chain jitter hj k⟩
  · intro m htr
    exact ⟨retryCall_exhaust func jitter m htr, by simp [backoffDelays]⟩

/-- A call failing transiently on attempts 0 and 1, succeeding on 2. -/
def flakyFunc : Nat → Except QBError Nat := fun i =>
  if i = 0 then Except.error (QBError.transient "server error 0")
  else if i = 1 then Except.error (QBError.transient "server error 1")
  else Except.ok 42

/-- A constant jitter stream drawn from `[0, 1)`. -/
def jitterHalf : Nat → ℚ := fun _ => 1 / 2

theorem retry_backoff_spec_witness :
    retryCall flakyFunc jitterHalf = some (Except.ok 42, backoffDelays jitterHalf 2)
    ∧ (backoffDelays jitterHalf 2).length = 2
    ∧ List.Chain' (· ≤ ·) (backoffDelays jitterHalf 2) :=
  (retry_backoff_spec flakyFunc jitterHalf
      (fun _ => ⟨by norm_num [jitterHalf], by norm_num [jitterHalf]⟩)).1 2 42
    (by decide)
    (fun i hi => by
      have h : i = 0 ∨ i = 1 := by omega
      rcases h with h | h <;> subst h <;> exact ⟨_, rfl⟩)
    rfl

/-- C4: an authorization error is never retried: whatever attempt it
occurs on, `_retry_call` propagates it unchanged at once — the recorded
sleeps are exactly those of the earlier transient attempts, none for the
authorization error itself; on the first attempt it aborts with zero
sleeps. -/
theorem retry_auth_no_retry {α : Type} (func : Nat → Except QBError α) (jitter : Nat → ℚ)
    (k : Nat) (m : String) (hk : k ≤ MAX_RETRIES)
    (htr : ∀ i, i < k → ∃ mi, func i = Except.error (QBError.transient mi))
    (hauth : func k = Except.error (QBError.authorization m)) :
    retryCall func jitter
      = some (Except.error (QBError.authorization m), backoffDelays jitter k)
    ∧ (backoffDelays jitter k).length = k
    ∧ (k = 0 → retryCall func jitter
        = some (Except.error (QBError.authorization m), [])) := by
  have h := retryCall_auth func jitter k m hk htr hauth
  refine ⟨h, by simp [backoffDelays], fun hk0 => ?_⟩
  subst hk0
  simpa [backoffDelays] using h

/-- A call failing with an authorization error on every attempt. -/
def authFunc : Nat → Except QBError Nat :=
  fun _ => Except.error (QBError.authorization "Unauthorized")

theorem retry_auth_no_retry_witness :
    retryCall authFunc jitterHalf
      = some (Except.error (QBError.authorization "Unauthorized"), []) :=
  (retry_auth_no_retry authFunc jitterHalf 0 "Unauthorized" (by decide)
    (fun i hi => absurd hi (Nat.not_lt_zero i)) rfl).2.2 rfl

/-! ## Claim theorems: balance sheet -/

lemma balance_fold_lookup :
    ∀ (accounts : List Account) (d : PyDict String ℚ) (n : String),
      dictLookup (accounts.foldl
          (fun d acc => dictSet d (accountName acc) (accountBalance acc)) d) n
        = match lastNamedBalance accounts n with
          | some v => some v
          | none => dictLookup d n := by
  intro accounts
  induction accounts with
  | nil => intro d n; simp [lastNamedBalance]
  | cons acc rest ih =>
    intro d n
    simp only [List.foldl_cons, lastNamedBalance]
    rw [ih]
    cases h : lastNamedBalance rest n with
    | some v => simp
    | none =>
      simp only [dictLookup_dictSet]
      by_cases hn : accountName acc = n
      · simp [hn]
      · simp [hn]

lemma balance_fold_sum :
    ∀ (accounts : List Account) (d : PyDict String ℚ),
      (accounts.map accountName).Nodup →
      (∀ a ∈ accounts, accountName a ∉ dictKeys d) →
      (dictValues (accounts.foldl
          (fun d acc => dictSet d (accountName acc) (accountBalance acc)) d)).sum
        = (dictValues d).sum + (accounts.map accountBalance).sum := by
  intro accounts
  induction accounts with
  | nil => intro d _ _; simp
  | cons acc rest ih =>
    intro d hnodup hkeys
    simp only [List.map_cons, List.nodup_cons] at hnodup
    simp only [List.foldl_cons, List.map_cons, List.sum_cons]
    have hnew : accountName acc ∉ dictKeys d := hkeys acc (List.mem_cons_self _ _)
    have hkeys' : ∀ a ∈ rest,
        accountName a ∉ dictKeys (dictSet d (accountName acc) (accountBalance acc)) := by
      intro a ha
      rw [mem_dictKeys_dictSet]
      push_neg
      refine ⟨hkeys a (List.mem_cons_of_mem _ ha), fun heq => ?_⟩
      exact hnodup.1 (heq ▸ List.mem_map_of_mem accountName ha)
    rw [ih _ hnodup.2 hkeys', sum_dictValues_dictSet_new d _ _ hnew]
    ring

/-- Two accounts sharing the name `"A"` with balances 1 and 2. -/
def dupAcctA : Account :=
  { Name := some "A", CurrentBalance := some 1, AccountType := none }

def dupAcctB : Account :=
  { Name := some "A", CurrentBalance := some 2, AccountType := none }

/-- C9: `generate_balance_sheet_data` keys its output by account name:
looking a name up yields the balance of the LAST account carrying it
(earlier duplicates are silently overwritten); when names are pairwise
distinct the values total the account balances, and with the duplicate
pair `dupAcctA`/`dupAcctB` the totals differ. -/
theorem balance_sheet_last_wins :
    (∀ (accounts : List Account) (n : String),
      dictLookup (generate_balance_sheet_data accounts) n = lastNamedBalance accounts n)
    ∧ (∀ accounts : List Account, (accounts.map accountName).Nodup →
      (dictValues (generate_balance_sheet_data accounts)).sum
        = (accounts.map accountBalance).sum)
    ∧ (dictValues (generate_balance_sheet_data [dupAcctA, dupAcctB])).sum
        ≠ ([dupAcctA, dupAcctB].map accountBalance).sum := by
  refine ⟨fun accounts n => ?_, fun accounts hnodup => ?_, by
    norm_num [generate_balance_sheet_data, dupAcctA, dupAcctB, accountName,
      accountBalance, dictSet, dictValues]⟩
  · rw [generate_balance_sheet_data]
    by_cases he : accounts.isEmpty
    · have : accounts = [] := List.isEmpty_iff.mp he
      subst this
      simp [dictLookup, lastNamedBalance]
    · rw [if_neg he, balance_fold_lookup]
      cases h : lastNamedBalance accounts n <;> simp [dictLookup]
  · rw [generate_balance_sheet_data]
    by_cases he : accounts.isEmpty
    · have : accounts = [] := List.isEmpty_iff.mp he
      subst this
      simp [dictValues]
    · rw [if_neg he, balance_fold_sum accounts [] hnodup (by intro a _; simp [dictKeys])]
      simp [dictValues]

theorem balance_sheet_last_wins_witness :
    (([⟨some "Cash", some 5000, none⟩, ⟨some "Loan", some 2000, none⟩]
        : List Account).map accountName).Nodup
    ∧ (dictValues (generate_balance_sheet_data
        [⟨some "Cash", some 5000, none⟩, ⟨some "Loan", some 2000, none⟩])).sum
      = (([⟨some "Cash", some 5000, none⟩, ⟨some "Loan", some 2000, none⟩]
          : List Account).map accountBalance).sum :=
  ⟨by decide, balance_sheet_last_wins.2.1 _ (by decide)⟩

/-- The four typed accounts of the repository's own
`test_grouped_output` test. -/
def typedAccounts : List Account :=
  [ { Name := some "Checking", CurrentBalance := some 10000, AccountType := some "Bank" },
    { Name := some "AR", CurrentBalance := some 5000,
      AccountType := some "Accounts Receivable" },
    { Name := some "AP", CurrentBalance := some 3000,
      AccountType := some "Accounts Payable" },
    { Name := some "Owner Equity", CurrentBalance := some 12000,
      AccountType := some "Equity" } ]

/-- C1: at the input of the repository's `test_grouped_output` test,
`generate_balance_sheet_data` returns the flat `{name: balance}` dict —
it never consults `AccountType` and produces no grouped rows, subtotal
or spacer rows, and no section-totals map, contradicting the claim and
the repository's own tests. -/
theorem balance_sheet_flat_at_typed_accounts :
    generate_balance_sheet_data typedAccounts
      = [("Checking", 10000), ("AR", 5000), ("AP", 3000), ("Owner Equity", 12000)] := by
  decide

/-! ## Claim theorems: categorization -/

/-- C8: line categorization is total: an absent or `None` amount is 0, a
present amount passes through as a signed decimal; absent detail data
degrades to the default category; extraction produces exactly one record
per source line, never failing. -/
theorem categorization_total_defaults :
    (∀ line : TxnLine, line.Amount = none → lineAmount line = 0)
    ∧ (∀ line : TxnLine, line.Amount = some none → lineAmount line = 0)
    ∧ (∀ (line : TxnLine) (q : ℚ), line.Amount = some (some q) → lineAmount line = q)
    ∧ (∀ line : TxnLine, line.SalesItemLineDetail = none →
      revenueCategory line = some "Other Revenue")
    ∧ (∀ line : TxnLine, line.AccountBasedExpenseLineDetail = none →
      line.ItemBasedExpenseLineDetail = none →
      expenseCategory line = some "Other Expenses")
    ∧ (∀ invoices : List Invoice, (extract_revenue_lines invoices).length
      = (invoices.map (fun inv => (invoiceLines inv).length)).sum)
    ∧ (∀ bills : List Bill, (extract_expense_lines bills).length
      = (bills.map (fun b => (billLines b).length)).sum) := by
  refine ⟨?_, ?_, ?_, ?_, ?_, ?_, ?_⟩
  · intro line h; simp [lineAmount, h]
  · intro line h; simp [lineAmount, h]
  · intro line q h; simp [lineAmount, h]
  · intro line h; simp [revenueCategory, h]
  · intro line h1 h2; simp [expenseCategory, h1, h2]
  · intro invoices
    rw [extract_revenue_lines, List.length_flatMap]
    simp [Function.comp_def]
  · intro bills
    rw [extract_expense_lines, List.length_flatMap]
    simp [Function.comp_def]

/-- A line with no attributes set: absent amount, no detail payloads. -/
def bareLine : TxnLine :=
  { Amount := none, SalesItemLineDetail := none,
    AccountBasedExpenseLineDetail := none, ItemBasedExpenseLineDetail := none }

theorem categorization_total_defaults_witness :
    lineAmount bareLine = 0
    ∧ revenueCategory bareLine = some "Other Revenue"
    ∧ expenseCategory bareLine = some "Other Expenses" :=
  ⟨categorization_total_defaults.1 bareLine rfl,
   categorization_total_defaults.2.2.2.1 bareLine rfl,
   categorization_total_defaults.2.2.2.2.1 bareLine rfl rfl⟩

/-- A Python category value is blank when it is `None` or empty. -/
def blankCategory : Option String → Bool
  | none => true
  | some s => s.isEmpty

/-- An expense line whose account-based detail carries a reference whose
`name` attribute is present but `None` — as the `quickbooks` library's
reference objects are initialised. -/
def unnamedRefLine : TxnLine :=
  { Amount := some (some 1000)
    SalesItemLineDetail := none
    AccountBasedExpenseLineDetail := some { AccountRef := some { name := some none } }
    ItemBasedExpenseLineDetail := none }

/-- C6 counterexample: on a line whose detail is present and whose
reference exists but carries a `None` name, the code emits the `None`
category — a blank category — instead of the default label. -/
theorem expense_blank_category_counterexample :
    expenseCategory unnamedRefLine ≠ some "Other Expenses"
    ∧ expenseCategory unnamedRefLine = none
    ∧ blankCategory (expenseCategory unnamedRefLine) = true := by
  decide

/-- C6 (amended): expense categorization checks the account-based detail
first and then the item-based detail, uses the reference's name as the
category, and falls back to `"Other Expenses"` when no detail is present,
the reference is missing, or the reference lacks a `name` attribute; but
when the reference carries an explicit name value, that value is emitted
verbatim — including `None` or the empty string — so a blank category
can be emitted. -/
theorem expense_priority_and_defaults :
    (∀ (line : TxnLine) (d : AcctExpenseDetail),
      line.AccountBasedExpenseLineDetail = some d →
      expenseCategory line
        = expenseCategory { line with ItemBasedExpenseLineDetail := none })
    ∧ (∀ (line : TxnLine) (d : AcctExpenseDetail) (ref : QBRef) (v : Option String),
      line.AccountBasedExpenseLineDetail = some d →
      d.AccountRef = some ref → ref.name = some v →
      expenseCategory line = v)
    ∧ (∀ (line : TxnLine) (d : ItemExpenseDetail) (ref : QBRef) (s : String),
      line.AccountBasedExpenseLineDetail = none →
      line.ItemBasedExpenseLineDetail = some d →
      d.ItemRef = some ref → ref.name = some (some s) →
      expenseCategory line = some s)
    ∧ (∀ (line : TxnLine) (d : AcctExpenseDetail),
      line.AccountBasedExpenseLineDetail = some d → d.AccountRef = none →
      expenseCategory line = some "Other Expenses")
    ∧ (∀ (line : TxnLine) (d : AcctExpenseDetail) (ref : QBRef),
      line.AccountBasedExpenseLineDetail = some d →
      d.AccountRef = some ref → ref.name = none →
      expenseCategory line = some "Other Expenses")
    ∧ (∀ line : TxnLine,
      line.AccountBasedExpenseLineDetail = none →
      line.ItemBasedExpenseLineDetail = none →
      expenseCategory line = some "Other Expenses") := by
  refine ⟨?_, ?_, ?_, ?_, ?_, ?_⟩
  · intro line d h; simp [expenseCategory, h]
  · intro line d ref v h1 h2 h3; simp [expenseCategory, getattrName, h1, h2, h3]
  · intro line d ref s h1 h2 h3 h4; simp [expenseCategory, getattrName, h1, h2, h3, h4]
  · intro line d h1 h2; simp [expenseCategory, h1, h2]
  · intro line d ref h1 h2 h3; simp [expenseCategory, getattrName, h1, h2, h3]
  · intro line h1 h2; simp [expenseCategory, h1, h2]

theorem expense_priority_witness :
    expenseCategory bareLine = some "Other Expenses" :=
  expense_priority_and_defaults.2.2.2.2.2 bareLine rfl rfl

/-! ## Claim theorem: cash flow -/

/-- C7: the cash-flow engine deterministically derives the three net
figures as the sums of the supplied category maps,
`net_change_in_cash` as their total, and
`ending_cash = beginning_cash + net_change_in_cash`. -/
theorem cash_flow_derivation (net_income beginning_cash : ℚ)
    (operating investing financing : PyDict String ℚ) :
    (generate_cash_flow_statement net_income beginning_cash
        operating investing financing).net_operating = (dictValues operating).sum
    ∧ (generate_cash_flow_statement net_income beginning_cash
        operating investing financing).net_investing = (dictValues investing).sum
    ∧ (generate_cash_flow_statement net_income beginning_cash
        operating investing financing).net_financing = (dictValues financing).sum
    ∧ (generate_cash_flow_statement net_income beginning_cash
        operating investing financing).net_change_in_cash
      = (generate_cash_flow_statement net_income beginning_cash
          operating investing financing).net_operating
        + (generate_cash_flow_statement net_income beginning_cash
            operating investing financing).net_investing
        + (generate_cash_flow_statement net_income beginning_cash
            operating investing financing).net_financing
    ∧ (generate_cash_flow_statement net_income beginning_cash
        operating investing financing).ending_cash
      = beginning_cash + (generate_cash_flow_statement net_income beginning_cash
          operating investing financing).net_change_in_cash
    ∧ (generate_cash_flow_statement net_income beginning_cash
        operating investing financing).net_income = net_income :=
  ⟨rfl, rfl, rfl, rfl, rfl, rfl⟩
